import Mathlib

/-!
Shallow embedding of the fsb5 crate (src/fsb5/src/lib.rs, src/fsb5/src/error.rs,
src/fsb5/src/pcm.rs) for checking the natural-language specification against
the code.

Modelling conventions:
- The seekable byte source (io traits Read + BufRead + Seek over an in-memory
  buffer) is a `ByteStream`: a list of bytes (Nat, each < 256 in every input we
  construct) plus a cursor position.  `read_exact` over a too-short stream is
  the io error; it is represented by the error constructor `Error.IOErr`.
- Machine integers are Nat.  Where overflow or shift-overflow matters the
  modelling is explicit: `bits` mirrors the value computed by a release build
  (shift amounts masked modulo 64, which is the defined overflow behaviour of
  the shl operator there), while `bitsChecked` returns `none` exactly where a
  debug build checks and aborts on the shift-amount overflow in `1 << stop`.
- Operations that can abort the process (integer overflow checks, slice
  indexing out of range, Option::unwrap on None) are modelled with `Option`:
  `none` is an abort, never a typed error value.
- `HashMap<u64, MetadataChunk>` is modelled as an association list with
  insert-overwrites-existing-key semantics (`mapInsert` / `mapGet`); the
  claims only observe lookups and whole-map contents of singleton maps.
- `String` values are modelled as their UTF-8 byte lists; `String::from_utf8`
  is the validity test `isUtf8` (the standard UTF-8 acceptance predicate).
- The hound WAV writer used by pcm.rs is external to the repository; the
  emitted WAV container is modelled abstractly as `WavOut`: the WavSpec header
  fields exactly as pcm.rs fills them plus the bytes written into the data
  chunk, with the writer operations modelled as succeeding.
-/

set_option maxRecDepth 100000

namespace Fsb5

/-- In-memory byte source with a cursor: models the Read + BufRead + Seek
reader that FSB5::read consumes. -/
structure ByteStream where
  data : List Nat
  pos : Nat

/-- Sound formats, from enum SoundFormat in lib.rs. -/
inductive SoundFormat where
  | None
  | PCM8
  | PCM16
  | PCM24
  | PCM32
  | PCMFloat
  | GCADPCM
  | IMAADPCM
  | VAG
  | HEVAG
  | XMA
  | MPEG
  | CELT
  | AT9
  | XWMA
  | Vorbis
deriving DecidableEq

/-- Error enum from error.rs.  `IOErr` stands for the variant named IO there
(an underlying io failure), `PCMErr` for the hound-originated variant. -/
inductive Error where
  | SoundFormat (value : Nat)
  | MetadataChunkType (t : Nat)
  | MagicHeader (magic : List Nat)
  | Frequency (value : Nat)
  | NameTable (i : Nat)
  | Mismatched
  | RebuildFormat (mode : SoundFormat)
  | IOErr
  | PCMErr
deriving DecidableEq

/-- TryFrom u32 for SoundFormat (lib.rs lines 45-69). -/
def soundFormatOfNat (value : Nat) : Except Error SoundFormat :=
  match value with
  | 0 => .ok .None
  | 1 => .ok .PCM8
  | 2 => .ok .PCM16
  | 3 => .ok .PCM24
  | 4 => .ok .PCM32
  | 5 => .ok .PCMFloat
  | 6 => .ok .GCADPCM
  | 7 => .ok .IMAADPCM
  | 8 => .ok .VAG
  | 9 => .ok .HEVAG
  | 10 => .ok .XMA
  | 11 => .ok .MPEG
  | 12 => .ok .CELT
  | 13 => .ok .AT9
  | 14 => .ok .XWMA
  | 15 => .ok .Vorbis
  | v => .error (.SoundFormat v)

/-- Reader::read_exact into a buffer of length n: succeeds iff n bytes remain,
returning those bytes and advancing the cursor. -/
def readExact (n : Nat) (s : ByteStream) : Except Error (List Nat × ByteStream) :=
  if s.pos + n ≤ s.data.length then
    .ok ((s.data.drop s.pos).take n, ⟨s.data, s.pos + n⟩)
  else
    .error .IOErr

/-- Little-endian value of a byte list (byteorder LittleEndian). -/
def leVal : List Nat → Nat
  | [] => 0
  | b :: t => b + 256 * leVal t

/-- Read an n-byte little-endian unsigned integer. -/
def readLE (n : Nat) (s : ByteStream) : Except Error (Nat × ByteStream) :=
  match readExact n s with
  | .error e => .error e
  | .ok (bs, s1) => .ok (leVal bs, s1)

/-- ReadBytesExt::read_u8. -/
def readU8 (s : ByteStream) : Except Error (Nat × ByteStream) := readLE 1 s

/-- ReadBytesExt::read_u32 with LittleEndian. -/
def readU32 (s : ByteStream) : Except Error (Nat × ByteStream) := readLE 4 s

/-- ReadBytesExt::read_u64 with LittleEndian. -/
def readU64 (s : ByteStream) : Except Error (Nat × ByteStream) := readLE 8 s

/-- Bytes from the front of l up to and including the first zero byte (all of
l when no zero occurs): the bytes BufRead::read_until(0) appends. -/
def takeUntilZero : List Nat → List Nat
  | [] => []
  | b :: t => if b = 0 then [0] else b :: takeUntilZero t

/-- BufRead::read_until(0, buf): reads up to and including the first zero
byte (or to end of stream), advancing the cursor; never fails in memory. -/
def readUntilZero (s : ByteStream) : List Nat × ByteStream :=
  let nm := takeUntilZero (s.data.drop s.pos)
  (nm, ⟨s.data, s.pos + nm.length⟩)

/-- FSB5Header from lib.rs lines 71-128.  `size` is the stream position
captured right after the header reads (seek Current 0). -/
structure FSB5Header where
  id : List Nat
  version : Nat
  num_samples : Nat
  sample_headers_size : Nat
  name_table_size : Nat
  data_size : Nat
  mode : SoundFormat
  zero : List Nat
  hash : List Nat
  dummy : List Nat
  unknown : Nat
  size : Nat

/-- FSB5Header::read (lib.rs lines 91-127): fixed-order reads, the extra u32
only when version = 0, the mode conversion performed after all reads. -/
def FSB5Header.read (s0 : ByteStream) : Except Error (FSB5Header × ByteStream) := do
  let (id, s) ← readExact 4 s0
  let (version, s) ← readU32 s
  let (num_samples, s) ← readU32 s
  let (sample_headers_size, s) ← readU32 s
  let (name_table_size, s) ← readU32 s
  let (data_size, s) ← readU32 s
  let (modeRaw, s) ← readU32 s
  let (zero, s) ← readExact 8 s
  let (hash, s) ← readExact 16 s
  let (dummy, s) ← readExact 8 s
  let (unknown, s) ← if version = 0 then readU32 s else pure (0, s)
  let mode ← soundFormatOfNat modeRaw
  pure ({ id, version, num_samples, sample_headers_size, name_table_size,
          data_size, mode, zero, hash, dummy, unknown, size := s.pos }, s)

/-- MetadataChunk enum from lib.rs lines 143-152. -/
inductive MetadataChunk where
  | Channels (channels : Nat)
  | Frequency (frequency : Nat)
  | Loop (a b : Nat)
  | XMASeek (data : List Nat)
  | DSPCOEFF (data : List Nat)
  | XWMAData (data : List Nat)
  | VorbisData (crc32 : Nat) (unknown : List Nat)
deriving DecidableEq

/-- MetadataChunk::read (lib.rs lines 154-199).  The source matches on the
integer chunk_type with arms 1, 2, 3, 6, 7, 10, 11 and a catch-all error;
a Rust match on integer literals is the chain of equality tests below. -/
def MetadataChunk.read (s : ByteStream) (chunk_size chunk_type : Nat) :
    Except Error (MetadataChunk × ByteStream) :=
  if chunk_type = 1 then
    match readU8 s with
    | .error e => .error e
    | .ok (channels, s1) => .ok (.Channels channels, s1)
  else if chunk_type = 2 then
    match readU32 s with
    | .error e => .error e
    | .ok (frequency, s1) => .ok (.Frequency frequency, s1)
  else if chunk_type = 3 then
    match readU32 s with
    | .error e => .error e
    | .ok (a, s1) =>
      match readU32 s1 with
      | .error e => .error e
      | .ok (b, s2) => .ok (.Loop a b, s2)
  else if chunk_type = 6 then
    match readExact chunk_size s with
    | .error e => .error e
    | .ok (d, s1) => .ok (.XMASeek d, s1)
  else if chunk_type = 7 then
    match readExact chunk_size s with
    | .error e => .error e
    | .ok (d, s1) => .ok (.DSPCOEFF d, s1)
  else if chunk_type = 10 then
    match readExact chunk_size s with
    | .error e => .error e
    | .ok (d, s1) => .ok (.XWMAData d, s1)
  else if chunk_type = 11 then
    match readU32 s with
    | .error e => .error e
    | .ok (crc32, s1) =>
      match readExact chunk_size s1 with
      | .error e => .error e
      | .ok (unknown, s2) => .ok (.VorbisData crc32 unknown, s2)
  else .error (.MetadataChunkType chunk_type)

/-- Bitfield reader fn bits (lib.rs lines 201-205) as computed by a release
build: the shift amounts of both shl and shr are masked modulo the 64-bit
word width, which is the defined shift-overflow behaviour there.  For
start + len < 64 this is the plain unsigned bitfield extraction. -/
def bits (val start len : Nat) : Nat :=
  (val &&& ((1 <<< ((start + len) % 64)) - 1)) >>> (start % 64)

/-- Bitfield reader fn bits under a debug build: the overflow check on the
shift amount of 1 <<< (start + len) aborts (none) when start + len reaches
the 64-bit word width. -/
def bitsChecked (val start len : Nat) : Option Nat :=
  if 64 ≤ start + len then none
  else some ((val &&& ((1 <<< (start + len)) - 1)) >>> start)

/-- Sample record from lib.rs lines 130-141.  The name is the UTF-8 byte list
of the String; metadata is the chunk-type-keyed map. -/
structure Sample where
  name : List Nat
  frequency : Nat
  channels : Nat
  data_offset : Nat
  samples : Nat
  metadata : List (Nat × MetadataChunk)
  data : Option (List Nat)

/-- HashMap::insert: overwrite the existing binding of the key or append. -/
def mapInsert : List (Nat × MetadataChunk) → Nat → MetadataChunk →
    List (Nat × MetadataChunk)
  | [], k, v => [(k, v)]
  | (k1, v1) :: t, k, v =>
    if k1 = k then (k, v) :: t else (k1, v1) :: mapInsert t k v

/-- HashMap::get. -/
def mapGet : List (Nat × MetadataChunk) → Nat → Option MetadataChunk
  | [], _ => none
  | (k, v) :: t, key => if k = key then some v else mapGet t key

/-- Metadata chunk chain loop of FSB5::read (lib.rs lines 237-256): while the
continuation flag is set, read a u32 chunk header, decode the chunk; an
unrecognized-chunk-type failure is non-fatal (the loop continues without
consuming the chunk payload), any other failure aborts.  The fuel argument
only bounds the loop for the termination checker: each iteration consumes at
least the 4 header bytes, so the fuel passed by callers (stream length + 1)
is never exhausted; fuel 0 is an unreachable io-error fallback. -/
def chunkLoop : Nat → ByteStream → Nat → List (Nat × MetadataChunk) →
    Except Error (List (Nat × MetadataChunk) × ByteStream)
  | _, s, 0, chunks => .ok (chunks, s)
  | 0, _, _, _ => .error .IOErr
  | fuel + 1, s, _, chunks =>
    match readU32 s with
    | .error e => .error e
    | .ok (raw, s1) =>
      match MetadataChunk.read s1 (bits raw 1 24) (bits raw 25 7) with
      | .ok (cd, s2) => chunkLoop fuel s2 (bits raw 0 1) (mapInsert chunks (bits raw 25 7) cd)
      | .error (.MetadataChunkType _) => chunkLoop fuel s1 (bits raw 0 1) chunks
      | .error e => .error e

/-- Coarse 4-bit frequency code table of FSB5::read (lib.rs lines 261-274);
a Rust match on the integer literals 1 through 9 with a catch-all error. -/
def freqOfCoarse (frequency : Nat) : Except Error Nat :=
  if frequency = 1 then .ok 8000
  else if frequency = 2 then .ok 11000
  else if frequency = 3 then .ok 11025
  else if frequency = 4 then .ok 16000
  else if frequency = 5 then .ok 22050
  else if frequency = 6 then .ok 24000
  else if frequency = 7 then .ok 32000
  else if frequency = 8 then .ok 44100
  else if frequency = 9 then .ok 48000
  else .error (.Frequency frequency)

/-- Sample-rate resolution of FSB5::read (lib.rs lines 258-275): a Frequency
metadata chunk under key 2 overrides, otherwise the coarse code is mapped
through the fixed table. -/
def resolveFrequency (chunks : List (Nat × MetadataChunk)) (coarse : Nat) :
    Except Error Nat :=
  match mapGet chunks 2 with
  | some (MetadataChunk.Frequency f) => .ok f
  | _ => freqOfCoarse coarse

/-- Decimal digits of n, most significant first (fuel-structural so that it
reduces definitionally; the fuel n + 1 always suffices). -/
def natDigitsAux : Nat → Nat → List Nat
  | 0, _ => []
  | fuel + 1, n => if n < 10 then [n] else natDigitsAux fuel (n / 10) ++ [n % 10]

/-- UTF-8 bytes of format!("{}", i) for a sample index i. -/
def nameOf (i : Nat) : List Nat := (natDigitsAux (i + 1) i).map (fun d => d + 48)

/-- Per-sample body of the header-decoding loop of FSB5::read (lib.rs lines
229-286): one u64 word, bitfield extraction, the chunk chain, then the
sample-rate resolution.  The 30-bit field at start bit 34 is read through
bits with start + len = 64 (see bitsChecked for what a debug build does
there). -/
def readSample (i : Nat) (s : ByteStream) : Except Error (Sample × ByteStream) :=
  match readU64 s with
  | .error e => .error e
  | .ok (raw, s1) =>
    match chunkLoop (s1.data.length + 1) s1 (bits raw 0 1) [] with
    | .error e => .error e
    | .ok (chunks, s2) =>
      match resolveFrequency chunks (bits raw 1 4) with
      | .error e => .error e
      | .ok frequency =>
        .ok ({ name := nameOf i, frequency, channels := bits raw 5 1 + 1,
               data_offset := bits raw 6 28 * 16, samples := bits raw 34 30,
               metadata := chunks, data := none }, s2)

/-- The for-loop over 0..num_samples of FSB5::read: n samples starting at
index i. -/
def readSamples : Nat → Nat → ByteStream → Except Error (List Sample × ByteStream)
  | 0, _, s => .ok ([], s)
  | n + 1, i, s =>
    match readSample i s with
    | .error e => .error e
    | .ok (smp, s1) =>
      match readSamples n (i + 1) s1 with
      | .error e => .error e
      | .ok (rest, s2) => .ok (smp :: rest, s2)

/-- Continuation byte test of the standard UTF-8 acceptance predicate. -/
def utf8Cont (b : Nat) : Bool := 128 ≤ b && b ≤ 191

/-- Constraint on the two trailing bytes of a three-byte UTF-8 sequence
(leading byte b in [224, 239]): overlong forms under E0 and surrogate code
points under ED are rejected. -/
def utf8Seq3 (b c1 c2 : Nat) : Bool :=
  (if b = 224 then 160 ≤ c1 && c1 ≤ 191
   else if b = 237 then 128 ≤ c1 && c1 ≤ 159
   else utf8Cont c1) && utf8Cont c2

/-- Constraint on the three trailing bytes of a four-byte UTF-8 sequence
(leading byte b in [240, 244]): overlong forms under F0 and code points
beyond U+10FFFF under F4 are rejected. -/
def utf8Seq4 (b c1 c2 c3 : Nat) : Bool :=
  (if b = 240 then 144 ≤ c1 && c1 ≤ 191
   else if b = 244 then 128 ≤ c1 && c1 ≤ 143
   else utf8Cont c1) && utf8Cont c2 && utf8Cont c3

/-- Validity test of String::from_utf8: the standard UTF-8 acceptance
predicate over the byte list. -/
def isUtf8 : List Nat → Bool
  | [] => true
  | b :: t =>
    if b ≤ 127 then isUtf8 t
    else if b < 194 then false
    else if b ≤ 223 then
      match t with
      | c1 :: t1 => utf8Cont c1 && isUtf8 t1
      | [] => false
    else if b ≤ 239 then
      match t with
      | c1 :: c2 :: t2 => utf8Seq3 b c1 c2 && isUtf8 t2
      | _ => false
    else if b ≤ 244 then
      match t with
      | c1 :: c2 :: c3 :: t3 => utf8Seq4 b c1 c2 c3 && isUtf8 t3
      | _ => false
    else false

/-- Offset-array read of the name-table block (lib.rs lines 291-294):
num_samples little-endian u32 values. -/
def readOffsets : Nat → ByteStream → Except Error (List Nat × ByteStream)
  | 0, s => .ok ([], s)
  | n + 1, s =>
    match readU32 s with
    | .error e => .error e
    | .ok (off, s1) =>
      match readOffsets n s1 with
      | .error e => .error e
      | .ok (rest, s2) => .ok (off :: rest, s2)

/-- Per-sample name resolution loop (lib.rs lines 296-303): seek to
(name-table start + recorded offset), read up to and including the zero
byte, validate as UTF-8.  The index i into offs mirrors
samplename_offsets[i]; at the call site offs always has one entry per
sample, so the getD default is never taken. -/
def resolveNames (start : Nat) : Nat → List Sample → List Nat → ByteStream →
    Except Error (List Sample × ByteStream)
  | _, [], _, s => .ok ([], s)
  | i, smp :: srest, offs, s =>
    let s1 : ByteStream := ⟨s.data, start + offs.getD i 0⟩
    let r := readUntilZero s1
    if isUtf8 r.1 then
      match resolveNames start (i + 1) srest offs r.2 with
      | .error e => .error e
      | .ok (rest, s3) => .ok ({ smp with name := r.1 } :: rest, s3)
    else .error (.NameTable i)

/-- Name Table Resolver step of FSB5::read (lib.rs lines 288-304): runs only
when the name-table size is nonzero; captures the table start position
before reading the offset array. -/
def applyNameTable (header : FSB5Header) (samples : List Sample) (s : ByteStream) :
    Except Error (List Sample × ByteStream) :=
  if 0 < header.name_table_size then
    match readOffsets header.num_samples s with
    | .error e => .error e
    | .ok (offs, s1) => resolveNames s.pos 0 samples offs s1
  else .ok (samples, s)

/-- Data Segment Slicer loop of FSB5::read (lib.rs lines 309-319).  For each
sample the slice size data_end - data_start is computed (the next sample's
offset, or data_offset + data_size for the last): when data_end < data_start
the unsigned subtraction overflow check aborts (none).  The buffer passed to
read_exact is the freshly created Vec::with_capacity, whose length is 0, so
the read transfers zero bytes, always succeeds, leaves the cursor in place,
and every payload becomes Some of the empty byte list. -/
def sliceLoop : List Sample → Nat → Option (List Sample)
  | [], _ => some []
  | [a], _ => some [{ a with data := some [] }]
  | a :: b :: t, ds =>
    if b.data_offset < a.data_offset then none
    else
      match sliceLoop (b :: t) ds with
      | none => none
      | some rest => some ({ a with data := some [] } :: rest)

/-- FSB5 container value (lib.rs lines 207-212). -/
structure FSB5 where
  header : FSB5Header
  raw_size : Nat
  samples : List Sample

/-- FSB5::read (lib.rs lines 215-326): magic check, seek back to 0, header
parse, sample-header loop, name table, data slicing.  The outer Option is
the abort layer: none means the decode aborts the process (the slicer's
subtraction overflow) instead of returning a typed result.  The seek to the
data segment before slicing is position-only and the slicer transfers zero
bytes, so it does not appear in sliceLoop. -/
def FSB5.read (s : ByteStream) : Option (Except Error FSB5) :=
  match readExact 4 s with
  | .error e => some (.error e)
  | .ok (magic, s1) =>
    if magic = [70, 83, 66, 53] then
      match FSB5Header.read ⟨s1.data, 0⟩ with
      | .error e => some (.error e)
      | .ok (header, s2) =>
        match readSamples header.num_samples 0 s2 with
        | .error e => some (.error e)
        | .ok (samples, s3) =>
          match applyNameTable header samples s3 with
          | .error e => some (.error e)
          | .ok (samples2, _) =>
            match sliceLoop samples2 header.data_size with
            | none => none
            | some samples3 =>
              some (.ok { header := header,
                          raw_size := header.size + header.sample_headers_size
                            + header.name_table_size + header.data_size,
                          samples := samples3 })
    else some (.error (.MagicHeader magic))

/-- Abstraction of the WAV container emitted through the hound writer by
pcm.rs: the WavSpec fields exactly as rebuild fills them (lines 9-14) plus
the bytes written into the data chunk (line 20). -/
structure WavOut where
  channels : Nat
  sample_rate : Nat
  bits_per_sample : Nat
  data : List Nat

/-- pcm::rebuild (pcm.rs lines 5-26).  sample.data.unwrap() aborts (none)
when the payload is absent; the slice [..samples * width] aborts when the
payload is shorter.  channels is narrowed as u16; the WavSpec field
bits_per_sample receives width, the byte width passed by the caller.  The
hound writer operations are modelled as succeeding. -/
def pcmRebuild (smp : Sample) (width : Nat) : Option (Except Error WavOut) :=
  match smp.data with
  | none => none
  | some d =>
    if smp.samples * width ≤ d.length then
      some (.ok { channels := smp.channels % 65536, sample_rate := smp.frequency,
                  bits_per_sample := width, data := d.take (smp.samples * width) })
    else none

/-- Rebuild output: either the raw payload passed through (MPEG arm) or the
WAV container built by pcm::rebuild. -/
inductive RebuildOut where
  | raw (d : List Nat)
  | wav (w : WavOut)

/-- Lift a pure function over the success value under the abort and error
layers. -/
def optErrMap {α β : Type} (g : α → β) : Option (Except Error α) → Option (Except Error β)
  | none => none
  | some (.error e) => some (.error e)
  | some (.ok a) => some (.ok (g a))

/-- FSB5::rebuild (lib.rs lines 328-339) with the pcm feature enabled: MPEG
passes sample.data.unwrap() through (an abort when the payload is absent),
the PCM widths dispatch to pcm::rebuild, every other mode is the
RebuildFormat error. -/
def FSB5.rebuild (f : FSB5) (smp : Sample) : Option (Except Error RebuildOut) :=
  match f.header.mode with
  | .MPEG =>
    match smp.data with
    | none => none
    | some d => some (.ok (.raw d))
  | .PCM8 => optErrMap .wav (pcmRebuild smp 1)
  | .PCM16 => optErrMap .wav (pcmRebuild smp 2)
  | .PCM32 => optErrMap .wav (pcmRebuild smp 4)
  | m => some (.error (.RebuildFormat m))

/-- Payloads of the decoded samples, when the decode returns a container. -/
def decodedPayloads : Option (Except Error FSB5) → Option (List (Option (List Nat)))
  | some (.ok f) => some (f.samples.map Sample.data)
  | _ => none

/-- Data offsets of the decoded samples, when the decode returns a container. -/
def decodedOffsets : Option (Except Error FSB5) → Option (List Nat)
  | some (.ok f) => some (f.samples.map Sample.data_offset)
  | _ => none

/-- Names of the decoded samples, when the decode returns a container. -/
def decodedNames : Option (Except Error FSB5) → Option (List (List Nat))
  | some (.ok f) => some (f.samples.map Sample.name)
  | _ => none

/-- Metadata maps of the decoded samples. -/
def decodedMeta : Option (Except Error FSB5) → Option (List (List (Nat × MetadataChunk)))
  | some (.ok f) => some (f.samples.map Sample.metadata)
  | _ => none

/-- Resolved sample rates of the decoded samples. -/
def decodedFreqs : Option (Except Error FSB5) → Option (List Nat)
  | some (.ok f) => some (f.samples.map Sample.frequency)
  | _ => none

/-- Little-endian bytes of a 32-bit value (test-vector construction). -/
def u32le (n : Nat) : List Nat :=
  [n % 256, n / 256 % 256, n / 65536 % 256, n / 16777216 % 256]

/-- Little-endian bytes of a 64-bit value (test-vector construction). -/
def u64le (n : Nat) : List Nat := u32le (n % 4294967296) ++ u32le (n / 4294967296)

/-- A 60-byte FSB5 header block: magic, version 1 (so no extra u32), the four
counts and sizes, mode 11 (MPEG), and 32 reserved zero bytes. -/
def hdrBytes (ns shs nts ds : Nat) : List Nat :=
  [70, 83, 66, 53] ++ u32le 1 ++ u32le ns ++ u32le shs ++ u32le nts ++ u32le ds
    ++ u32le 11 ++ List.replicate 32 0

/-- Concrete container for the data-slicing claim: 3 samples with data
offsets 0, 64, 64 (offset fields 0, 4, 4 pre-divided by 16), coarse
frequency code 8, no chunks, data_size 128, and a 128-byte data segment. -/
def exSlice : ByteStream :=
  ⟨hdrBytes 3 24 0 128 ++ u64le 16 ++ u64le 272 ++ u64le 272
    ++ List.replicate 128 7, 0⟩

/-- Concrete container for the name-table claim: 2 samples, a 19-byte name
table whose offset array is [8, 13] followed by the bytes of kick and snare,
each zero-terminated. -/
def exNames : ByteStream :=
  ⟨hdrBytes 2 16 19 0 ++ u64le 16 ++ u64le 16 ++ u32le 8 ++ u32le 13
    ++ [107, 105, 99, 107, 0, 115, 110, 97, 114, 101, 0], 0⟩

/-- Concrete container for the unknown-chunk claim: 1 sample whose chunk
chain is a Channels chunk (type 1, size 1, continuation set) followed by an
unknown chunk of type 99 with declared size 12 (continuation clear) and its
12 payload bytes, which the decoder never consumes. -/
def exChunk : ByteStream :=
  ⟨hdrBytes 1 29 0 0 ++ u64le 17 ++ u32le 33554435 ++ [2] ++ u32le 3321888792
    ++ List.replicate 12 9, 0⟩

/-- Concrete container for the frequency claim: 1 sample whose u64 word is 0,
so the coarse code is 0 and no Frequency chunk is present. -/
def exFreq : ByteStream := ⟨hdrBytes 1 8 0 0 ++ u64le 0, 0⟩

/-- Concrete container for the slicer-abort claim: 2 samples with descending
data offsets 64, 0. -/
def exDesc : ByteStream := ⟨hdrBytes 2 16 0 16 ++ u64le 272 ++ u64le 16, 0⟩

lemma readExact_ok (n : Nat) (s : ByteStream) (h : s.pos + n ≤ s.data.length) :
    readExact n s = .ok ((s.data.drop s.pos).take n, ⟨s.data, s.pos + n⟩) := by
  simp [readExact, h]

lemma readLE_ok (n : Nat) (s : ByteStream) (h : s.pos + n ≤ s.data.length) :
    readLE n s = .ok (leVal ((s.data.drop s.pos).take n), ⟨s.data, s.pos + n⟩) := by
  simp [readLE, readExact_ok n s h]

lemma readLE_ok_shape {n : Nat} {s s2 : ByteStream} {v : Nat}
    (h : readLE n s = .ok (v, s2)) : s2 = ⟨s.data, s.pos + n⟩ := by
  by_cases hc : s.pos + n ≤ s.data.length
  · rw [readLE_ok n s hc] at h
    exact (Prod.mk.injEq .. ▸ Except.ok.inj h).2.symm
  · simp [readLE, readExact, hc] at h

lemma resolveFrequency_no_override {chunks : List (Nat × MetadataChunk)}
    (coarse : Nat) (hno : ∀ f, mapGet chunks 2 ≠ some (MetadataChunk.Frequency f)) :
    resolveFrequency chunks coarse = freqOfCoarse coarse := by
  unfold resolveFrequency
  cases h : mapGet chunks 2 with
  | none => rfl
  | some c =>
    cases c with
    | Frequency f => exact absurd h (hno f)
    | Channels a => rfl
    | Loop a b => rfl
    | XMASeek d => rfl
    | DSPCOEFF d => rfl
    | XWMAData d => rfl
    | VorbisData a b => rfl

/-- C1: on the spec's own example (data offsets 0, 64, 64, data_size 128, a
128-byte data segment) the decoder computes the claimed byte ranges, but no
slice is ever copied: read_exact is handed the zero-length view of the
freshly allocated Vec, so every sample's payload ends up Some of the empty
byte list instead of the bytes of its range (sample 0's payload is not the
64 bytes at offsets 0 to 63, it is empty). -/
theorem c1_data_slicer_payloads :
    decodedOffsets (FSB5.read exSlice) = some [0, 64, 64]
    ∧ decodedPayloads (FSB5.read exSlice) = some [some [], some [], some []]
    ∧ decodedPayloads (FSB5.read exSlice)
        ≠ some [some (List.replicate 64 7), some [], some (List.replicate 64 7)] := by
  refine ⟨rfl, rfl, ?_⟩
  intro h
  rw [show decodedPayloads (FSB5.read exSlice) = some [some [], some [], some []] from rfl] at h
  simp at h

/-- C2: on a name table holding the bytes of kick and snare, each
zero-terminated, the resolver seeks to (table start + recorded offset) and
reads up to and including the zero byte, but the terminating zero byte is
never dropped before the UTF-8 decode: the resolved names are the bytes of
kick and snare with a trailing zero byte, not kick and snare. -/
theorem c2_nametable_terminator :
    decodedNames (FSB5.read exNames)
      = some [[107, 105, 99, 107, 0], [115, 110, 97, 114, 101, 0]]
    ∧ decodedNames (FSB5.read exNames)
        ≠ some [[107, 105, 99, 107], [115, 110, 97, 114, 101]] := by
  refine ⟨rfl, ?_⟩
  intro h
  rw [show decodedNames (FSB5.read exNames)
      = some [[107, 105, 99, 107, 0], [115, 110, 97, 114, 101, 0]] from rfl] at h
  simp at h

/-- C4: the Bitfield Reader is not total on its callers' inputs.  At the
30-bit sample-frame-count field at start bit 34 (start + width = 64, within
the word size as the claim allows) a debug build aborts on the shift-amount
overflow of 1 shifted by 64 (bitsChecked is none), and a release build masks
the shift amount, so bits returns 0 for every word; the value formed by the
width bits beginning at start is in general not 0 (for the word 2 ^ 63 it is
2 ^ 29). -/
theorem c4_bits_overflow :
    (∀ v : Nat, bitsChecked v 34 30 = none)
    ∧ (∀ v : Nat, bits v 34 30 = 0)
    ∧ (2 ^ 63 / 2 ^ 34) % 2 ^ 30 = 2 ^ 29 := by
  refine ⟨fun v => rfl, fun v => ?_, by norm_num⟩
  simp [bits]

/-- C10: when a sample's recorded data offset exceeds the next sample's, the
slicing loop aborts (none) instead of producing a typed error: the unsigned
subtraction data_end - data_start overflows.  Concretely, decoding a
container whose two samples carry data offsets 64 and 0 yields none (an
abort), not some error value. -/
theorem c10_slice_panic :
    (∀ (a b : Sample) (t : List Sample) (ds : Nat),
      b.data_offset < a.data_offset → sliceLoop (a :: b :: t) ds = none)
    ∧ FSB5.read exDesc = none := by
  refine ⟨fun a b t ds h => ?_, rfl⟩
  simp [sliceLoop, h]

/-- C10 witness: the slicer aborts on the concrete descending offsets 64, 0. -/
theorem c10_slice_panic_witness :
    sliceLoop [⟨[], 44100, 1, 64, 0, [], none⟩, ⟨[], 44100, 1, 0, 0, [], none⟩] 0
      = none :=
  c10_slice_panic.1 ⟨[], 44100, 1, 64, 0, [], none⟩ ⟨[], 44100, 1, 0, 0, [], none⟩
    [] 0 (by decide)

/-- C6: the resolved sample rate is the Frequency chunk's value when one is
present under key 2; otherwise coarse codes 1 through 9 map through the
fixed table 8000, 11000, 11025, 16000, 22050, 24000, 32000, 44100, 48000,
and coarse code 0 or any code of 10 or more fails with the Frequency error
carrying the offending raw code.  The decode of a whole container aborts
with that error: the concrete container with coarse code 0 and no chunks
decodes to the Frequency 0 error. -/
theorem c6_frequency (chunks : List (Nat × MetadataChunk)) (coarse : Nat) :
    (∀ f, mapGet chunks 2 = some (MetadataChunk.Frequency f) →
      resolveFrequency chunks coarse = .ok f)
    ∧ ((∀ f, mapGet chunks 2 ≠ some (MetadataChunk.Frequency f)) →
        ((1 ≤ coarse ∧ coarse ≤ 9 →
          resolveFrequency chunks coarse
            = .ok ([8000, 11000, 11025, 16000, 22050, 24000, 32000, 44100,
                    48000].getD (coarse - 1) 0))
        ∧ (coarse = 0 ∨ 10 ≤ coarse →
          resolveFrequency chunks coarse = .error (.Frequency coarse))))
    ∧ FSB5.read exFreq = some (.error (.Frequency 0)) := by
  refine ⟨fun f hf => ?_, fun hno => ⟨fun hrange => ?_, fun hbad => ?_⟩, rfl⟩
  · simp [resolveFrequency, hf]
  · rw [resolveFrequency_no_override coarse hno]
    obtain ⟨h1, h9⟩ := hrange
    interval_cases coarse <;> rfl
  · rw [resolveFrequency_no_override coarse hno]
    rcases hbad with h0 | h10
    · subst h0; rfl
    · unfold freqOfCoarse
      split_ifs <;> first | rfl | omega

/-- C6 witness: with no chunks, the coarse code 8 resolves to 44100. -/
theorem c6_frequency_witness :
    resolveFrequency [] 8
      = .ok ([8000, 11000, 11025, 16000, 22050, 24000, 32000, 44100,
              48000].getD (8 - 1) 0) :=
  (((c6_frequency [] 8).2.1 (fun f h => by simp [mapGet] at h)).1 (by omega))

/-- C9: decoding a stream whose first 4 bytes are not the FSB5 magic fails
with the MagicHeader error naming exactly those 4 bytes; the result depends
only on the first 4 bytes of the stream (the hypotheses constrain nothing
beyond them), so the parse fails before any byte past the first 4 is
consumed. -/
theorem c9_magic (s : ByteStream) (b0 b1 b2 b3 : Nat)
    (hpos : s.pos = 0) (hbytes : s.data.take 4 = [b0, b1, b2, b3])
    (hbad : [b0, b1, b2, b3] ≠ [70, 83, 66, 53]) :
    FSB5.read s = some (.error (.MagicHeader [b0, b1, b2, b3])) := by
  have hlen : 4 ≤ s.data.length := by
    have h4 := congrArg List.length hbytes
    simp [List.length_take] at h4
    omega
  have hre : readExact 4 s = .ok ([b0, b1, b2, b3], ⟨s.data, 4⟩) := by
    rw [readExact_ok 4 s (by omega), hpos, List.drop_zero, hbytes]
  unfold FSB5.read
  rw [hre]
  exact if_neg hbad

/-- C9 witness: a stream starting 1, 2, 3, 4 fails with MagicHeader
[1, 2, 3, 4]. -/
theorem c9_magic_witness :
    FSB5.read ⟨[1, 2, 3, 4, 5, 6], 0⟩ = some (.error (.MagicHeader [1, 2, 3, 4])) :=
  c9_magic ⟨[1, 2, 3, 4, 5, 6], 0⟩ 1 2 3 4 rfl rfl (by decide)

/-- C5: inside the chunk chain, an unrecognized metadata-chunk-type failure
is non-fatal: the loop continues on the stream positioned right after the
4-byte chunk header (the declared payload bytes stay unconsumed) with the
chunk map unchanged, while any other chunk-decode failure aborts the loop
with that error.  End to end, the concrete container with an unknown chunk
of type 99 and declared size 12 after a Channels chunk decodes successfully
with the Channels chunk and the sample intact. -/
theorem c5_unknown_chunk (fuel : Nat) (s s2 : ByteStream)
    (chunks : List (Nat × MetadataChunk)) (raw : Nat)
    (hread : readU32 s = .ok (raw, s2)) :
    (∀ t, MetadataChunk.read s2 (bits raw 1 24) (bits raw 25 7)
        = .error (.MetadataChunkType t) →
      s2.pos = s.pos + 4
      ∧ chunkLoop (fuel + 1) s 1 chunks = chunkLoop fuel s2 (bits raw 0 1) chunks)
    ∧ (∀ e, MetadataChunk.read s2 (bits raw 1 24) (bits raw 25 7) = .error e →
        (∀ t, e ≠ .MetadataChunkType t) →
        chunkLoop (fuel + 1) s 1 chunks = .error e)
    ∧ decodedMeta (FSB5.read exChunk) = some [[(1, MetadataChunk.Channels 2)]]
    ∧ decodedFreqs (FSB5.read exChunk) = some [44100] := by
  have hread' : readLE 4 s = .ok (raw, s2) := hread
  have hshape := readLE_ok_shape hread'
  have step : chunkLoop (fuel + 1) s 1 chunks
      = (match readU32 s with
         | .error e => .error e
         | .ok (raw, s1) =>
           match MetadataChunk.read s1 (bits raw 1 24) (bits raw 25 7) with
           | .ok (cd, s2) =>
             chunkLoop fuel s2 (bits raw 0 1) (mapInsert chunks (bits raw 25 7) cd)
           | .error (.MetadataChunkType _) => chunkLoop fuel s1 (bits raw 0 1) chunks
           | .error e => .error e) := rfl
  have step2 : chunkLoop (fuel + 1) s 1 chunks
      = (match MetadataChunk.read s2 (bits raw 1 24) (bits raw 25 7) with
         | .ok (cd, s3) =>
           chunkLoop fuel s3 (bits raw 0 1) (mapInsert chunks (bits raw 25 7) cd)
         | .error (.MetadataChunkType t) => chunkLoop fuel s2 (bits raw 0 1) chunks
         | .error e => .error e) := by
    rw [step, hread]
  refine ⟨fun t ht => ⟨?_, ?_⟩, fun e he hne => ?_, rfl, rfl⟩
  · rw [hshape]
  · rw [step2, ht]
  · rw [step2, he]
    cases e with
    | MetadataChunkType t => exact absurd rfl (hne t)
    | SoundFormat v => rfl
    | MagicHeader m => rfl
    | Frequency v => rfl
    | NameTable i => rfl
    | Mismatched => rfl
    | RebuildFormat m => rfl
    | IOErr => rfl
    | PCMErr => rfl

/-- C5 witness: on a stream holding the header word of an unknown chunk of
type 99 with declared size 12, one loop iteration continues on the stream
advanced exactly 4 bytes with the chunk map unchanged. -/
theorem c5_unknown_chunk_witness :
    (⟨[24, 0, 0, 198], 4⟩ : ByteStream).pos = (⟨[24, 0, 0, 198], 0⟩ : ByteStream).pos + 4
    ∧ chunkLoop 2 ⟨[24, 0, 0, 198], 0⟩ 1 [] = chunkLoop 1 ⟨[24, 0, 0, 198], 4⟩ (bits 3321888792 0 1) [] :=
  (c5_unknown_chunk 1 ⟨[24, 0, 0, 198], 0⟩ ⟨[24, 0, 0, 198], 4⟩ [] 3321888792 rfl).1
    99 rfl

/-- C7 counterexample: chunk-type codes 4 and 5 lie inside the range the
claim (and the error message in error.rs) declares recognized, yet the
decoder returns the unrecognized-chunk-type condition for them even with
ample bytes available. -/
theorem c7_chunktype_counterexample :
    MetadataChunk.read ⟨List.replicate 16 0, 0⟩ 4 4 = .error (.MetadataChunkType 4)
    ∧ MetadataChunk.read ⟨List.replicate 16 0, 0⟩ 4 5 = .error (.MetadataChunkType 5) :=
  ⟨rfl, rfl⟩

/-- C7 amended: the decoder returns a decoded tagged variant for exactly the
chunk-type codes 1, 2, 3, 6, 7, 10 and 11 (given enough bytes for the
chunk's shape), and the unrecognized-chunk-type condition carrying the
numeric code for every other code, including 4 and 5. -/
theorem c7_chunktype_amended (s : ByteStream) (cs t : Nat)
    (hbytes : s.pos + cs + 8 ≤ s.data.length) :
    ((t = 1 ∨ t = 2 ∨ t = 3 ∨ t = 6 ∨ t = 7 ∨ t = 10 ∨ t = 11) →
      ∃ c s2, MetadataChunk.read s cs t = .ok (c, s2))
    ∧ (¬(t = 1 ∨ t = 2 ∨ t = 3 ∨ t = 6 ∨ t = 7 ∨ t = 10 ∨ t = 11) →
      MetadataChunk.read s cs t = .error (.MetadataChunkType t)) := by
  constructor
  · intro ht
    rcases ht with rfl | rfl | rfl | rfl | rfl | rfl | rfl
    · have h1 : s.pos + 1 ≤ s.data.length := by omega
      exact ⟨.Channels (leVal ((s.data.drop s.pos).take 1)), ⟨s.data, s.pos + 1⟩,
        by simp [MetadataChunk.read, readU8, readLE_ok 1 s h1]⟩
    · have h1 : s.pos + 4 ≤ s.data.length := by omega
      exact ⟨.Frequency (leVal ((s.data.drop s.pos).take 4)), ⟨s.data, s.pos + 4⟩,
        by simp [MetadataChunk.read, readU32, readLE_ok 4 s h1]⟩
    · have h1 : s.pos + 4 ≤ s.data.length := by omega
      have h2 : s.pos + 4 + 4 ≤ s.data.length := by omega
      exact ⟨.Loop (leVal ((s.data.drop s.pos).take 4))
          (leVal ((s.data.drop (s.pos + 4)).take 4)), ⟨s.data, s.pos + 4 + 4⟩,
        by simp [MetadataChunk.read, readU32, readLE_ok 4 s h1,
              readLE_ok 4 (⟨s.data, s.pos + 4⟩ : ByteStream) h2]⟩
    · have h1 : s.pos + cs ≤ s.data.length := by omega
      exact ⟨.XMASeek ((s.data.drop s.pos).take cs), ⟨s.data, s.pos + cs⟩,
        by simp [MetadataChunk.read, readExact_ok cs s h1]⟩
    · have h1 : s.pos + cs ≤ s.data.length := by omega
      exact ⟨.DSPCOEFF ((s.data.drop s.pos).take cs), ⟨s.data, s.pos + cs⟩,
        by simp [MetadataChunk.read, readExact_ok cs s h1]⟩
    · have h1 : s.pos + cs ≤ s.data.length := by omega
      exact ⟨.XWMAData ((s.data.drop s.pos).take cs), ⟨s.data, s.pos + cs⟩,
        by simp [MetadataChunk.read, readExact_ok cs s h1]⟩
    · have h1 : s.pos + 4 ≤ s.data.length := by omega
      have h2 : s.pos + 4 + cs ≤ s.data.length := by omega
      exact ⟨.VorbisData (leVal ((s.data.drop s.pos).take 4))
          ((s.data.drop (s.pos + 4)).take cs), ⟨s.data, s.pos + 4 + cs⟩,
        by simp [MetadataChunk.read, readU32, readLE_ok 4 s h1,
              readExact_ok cs (⟨s.data, s.pos + 4⟩ : ByteStream) h2]⟩
  · intro h
    push_neg at h
    obtain ⟨n1, n2, n3, n6, n7, n10, n11⟩ := h
    simp [MetadataChunk.read, n1, n2, n3, n6, n7, n10, n11]

/-- C7 witness: with 20 bytes available, chunk-type 99 yields the
unrecognized-chunk-type condition carrying 99. -/
theorem c7_chunktype_witness :
    MetadataChunk.read ⟨List.replicate 20 0, 0⟩ 4 99
      = .error (.MetadataChunkType 99) :=
  (c7_chunktype_amended ⟨List.replicate 20 0, 0⟩ 4 99 (by decide)).2 (by decide)

/-- C3 counterexample: rebuilding the claim's PCM16, 2-channel, 44100 Hz
sample whose sample-frame count is 10 from a 40-byte payload emits a data
block of 10 times the 2-byte width = 20 bytes, not 40, and the emitted
header's bit-depth field receives the byte width 2 (the channel count and
rate are carried through). -/
theorem c3_pcm_counterexample :
    pcmRebuild ⟨[], 44100, 2, 0, 10, [], some (List.replicate 40 7)⟩ 2
      = some (.ok ⟨2, 44100, 2, List.replicate 20 7⟩)
    ∧ (List.replicate 20 7).length ≠ 40 := by
  exact ⟨rfl, by decide⟩

/-- C3 amended: for every PCM rebuild of a sample whose payload is populated
and at least samples times width bytes long, the emitted container's data
block is exactly the first samples times width bytes of the payload (excess
excluded), and its header carries the sample's channel count (narrowed to 16
bits), its sample rate, and the byte width in the bit-depth field. -/
theorem c3_pcm_amended (smp : Sample) (width : Nat) (d : List Nat)
    (hd : smp.data = some d) (hlen : smp.samples * width ≤ d.length) :
    ∃ w, pcmRebuild smp width = some (.ok w)
      ∧ w.channels = smp.channels % 65536
      ∧ w.sample_rate = smp.frequency
      ∧ w.bits_per_sample = width
      ∧ w.data = d.take (smp.samples * width)
      ∧ w.data.length = smp.samples * width := by
  refine ⟨⟨smp.channels % 65536, smp.frequency, width, d.take (smp.samples * width)⟩,
    ?_, rfl, rfl, rfl, rfl, ?_⟩
  · simp [pcmRebuild, hd, hlen]
  · simp [List.length_take]
    omega

/-- C3 witness: the amended statement at the claim's concrete sample. -/
theorem c3_pcm_witness :
    ∃ w, pcmRebuild ⟨[], 44100, 2, 0, 10, [], some (List.replicate 40 7)⟩ 2
        = some (.ok w)
      ∧ w.channels = 2 % 65536
      ∧ w.sample_rate = 44100
      ∧ w.bits_per_sample = 2
      ∧ w.data = (List.replicate 40 7).take (10 * 2)
      ∧ w.data.length = 10 * 2 :=
  c3_pcm_amended ⟨[], 44100, 2, 0, 10, [], some (List.replicate 40 7)⟩ 2
    (List.replicate 40 7) rfl (by decide)

/-- C8: rebuilding a sample whose payload was never populated does not fail
with the Mismatched error (that error variant is never constructed anywhere
in the crate): for every supported container format (MPEG passthrough and
the PCM widths) the rebuild aborts the process through Option::unwrap on
None or the payload slice (the none outcome), so no error value, Mismatched
or otherwise, is returned. -/
theorem c8_rebuild_mismatched (f : FSB5) (smp : Sample)
    (hd : smp.data = none)
    (hm : f.header.mode = SoundFormat.MPEG ∨ f.header.mode = SoundFormat.PCM8
      ∨ f.header.mode = SoundFormat.PCM16 ∨ f.header.mode = SoundFormat.PCM32) :
    FSB5.rebuild f smp = none
    ∧ FSB5.rebuild f smp ≠ some (.error Error.Mismatched) := by
  have h1 : FSB5.rebuild f smp = none := by
    rcases hm with h | h | h | h <;>
      simp [FSB5.rebuild, h, hd, pcmRebuild, optErrMap]
  refine ⟨h1, ?_⟩
  rw [h1]
  simp

/-- C8 witness: a concrete MPEG container and a sample with no payload. -/
theorem c8_rebuild_mismatched_witness :
    FSB5.rebuild
        ⟨⟨[70, 83, 66, 53], 1, 0, 0, 0, 0, .MPEG, List.replicate 8 0,
          List.replicate 16 0, List.replicate 8 0, 0, 60⟩, 60, []⟩
        ⟨[48], 44100, 1, 0, 0, [], none⟩ = none
    ∧ FSB5.rebuild
        ⟨⟨[70, 83, 66, 53], 1, 0, 0, 0, 0, .MPEG, List.replicate 8 0,
          List.replicate 16 0, List.replicate 8 0, 0, 60⟩, 60, []⟩
        ⟨[48], 44100, 1, 0, 0, [], none⟩ ≠ some (.error Error.Mismatched) :=
  c8_rebuild_mismatched _ _ rfl (Or.inl rfl)

end Fsb5
